import Mathlib

/-!
Shallow embedding of the core of the facial-keypoint-detection pipeline
(`facial_keypoints` package): bounding boxes, Python slice semantics for
numpy image crops, the face detector entry points `detect`, `detect_single`
and `crop_face`, the keypoint predictor (`predict`, `predict_on_original`),
and the orchestrating `process` / `process_single`.

Modelling conventions:
* Python floats are modelled as rationals (`ℚ`), so arithmetic identities
  hold exactly; floating-tolerance statements of the spec become exact
  equalities.
* Python ints are `Int`; Python floor division `//` is `Int.fdiv`, the
  `int()` cast truncates toward zero (`pyTrunc`).
* A numpy 2-D array is an `Image`: explicit `height`, `width` and a
  row-major pixel list.  `numpy`'s `.size` is the product of the shape.
* Slicing `a[y1:y2, x1:x2]` follows Python slice-endpoint normalisation:
  a negative endpoint has the axis length added, then is clamped to
  `[0, len]` (`pyBound`).
* The Haar cascade (`cv2.CascadeClassifier.detectMultiScale` composed with
  the grayscale conversion) and the Keras model forward pass (composed
  with `preprocess`, which resizes via cv2 and rescales) are external
  collaborators; they enter the embedding as explicit function arguments
  (`scan`, `model`).
* Python exceptions are an `Except` error channel (`PyError`).
-/

namespace FacialKeypoints

/-- Python `int()` on a rational: truncation toward zero. -/
def pyTrunc (q : ℚ) : Int := q.num.tdiv q.den

/-- Normalise one endpoint of a Python slice on an axis of length `len`:
a negative index has `len` added, then the result is clamped to `[0, len]`. -/
def pyBound (len : Nat) (i : Int) : Nat :=
  min (if i < 0 then i + (len : Int) else i).toNat len

/-- Python list slice `l[a:b]` (step 1). -/
def pySlice {α : Type} (l : List α) (a b : Int) : List α :=
  (l.take (pyBound l.length b)).drop (pyBound l.length a)

/-- A 2-D single-channel image: numpy array of shape `(height, width)` with
row-major pixel data. -/
structure Image where
  height : Nat
  width : Nat
  pix : List ℚ
deriving DecidableEq

/-- Total number of elements, `numpy`'s `.size` (product of the shape). -/
def Image.size (im : Image) : Nat := im.height * im.width

/-- The 2-D slice `im[y1:y2, x1:x2]` with Python endpoint normalisation on
each axis; pixels are gathered from the selected rows and columns. -/
def Image.slice (im : Image) (y1 y2 x1 x2 : Int) : Image :=
  let ya := pyBound im.height y1
  let yb := pyBound im.height y2
  let xa := pyBound im.width x1
  let xb := pyBound im.width x2
  { height := yb - ya
    width := xb - xa
    pix := ((List.range (yb - ya)).map (fun r =>
      (List.range (xb - xa)).map (fun c =>
        im.pix.getD ((ya + r) * im.width + (xa + c)) 0))).flatten }

/-- Immutable face bounding box (`BoundingBox` dataclass): left, top,
width, height as Python ints. -/
structure BoundingBox where
  x : Int
  y : Int
  width : Int
  height : Int
deriving DecidableEq

/-- Center property: `(x + width // 2, y + height // 2)` with Python floor
division. -/
def BoundingBox.center (b : BoundingBox) : Int × Int :=
  (b.x + Int.fdiv b.width 2, b.y + Int.fdiv b.height 2)

/-- Area property: `width * height`. -/
def BoundingBox.area (b : BoundingBox) : Int := b.width * b.height

/-- Python exceptions raised by the embedded code paths. -/
inductive PyError where
  | invalidImage
  | noFaceDetected
  | indexError
deriving DecidableEq

/-- `FaceDetector.detect`: reject a `None` or zero-size image with
`InvalidImageError`, otherwise run the cascade scan (grayscale conversion
plus `detectMultiScale`, abstracted as `scan`) and wrap each returned
`(x, y, w, h)` into a `BoundingBox`. -/
def detect (scan : Image → List (Int × Int × Int × Int)) (image : Option Image) :
    Except PyError (List BoundingBox) :=
  match image with
  | none => .error .invalidImage
  | some im =>
    if im.size = 0 then .error .invalidImage
    else .ok ((scan im).map (fun f => BoundingBox.mk f.1 f.2.1 f.2.2.1 f.2.2.2))

/-- Python `max(faces, key=lambda f: f.area)` starting from a current best:
a later element replaces the best only when its area is strictly larger,
so the first maximal element wins. -/
def maxByArea : BoundingBox → List BoundingBox → BoundingBox
  | best, [] => best
  | best, b :: bs => maxByArea (if best.area < b.area then b else best) bs

/-- `FaceDetector.detect_single`: run `detect`; on an empty list raise
`NoFaceDetectedError`, otherwise return the largest face by area. -/
def detect_single (scan : Image → List (Int × Int × Int × Int))
    (image : Option Image) : Except PyError BoundingBox :=
  match detect scan image with
  | .error e => .error e
  | .ok [] => .error .noFaceDetected
  | .ok (b :: bs) => .ok (maxByArea b bs)

/-- `FaceDetector.crop_face`: pad the box by `int(dimension * padding)` per
axis, clamp the start indices at 0 and the stop indices at the image
extent, and slice. -/
def crop_face (image : Image) (box : BoundingBox) (padding : ℚ) : Image :=
  let h : Int := image.height
  let w : Int := image.width
  let pad_x : Int := pyTrunc ((box.width : ℚ) * padding)
  let pad_y : Int := pyTrunc ((box.height : ℚ) * padding)
  let x1 := max 0 (box.x - pad_x)
  let y1 := max 0 (box.y - pad_y)
  let x2 := min w (box.x + box.width + pad_x)
  let y2 := min h (box.y + box.height + pad_y)
  image.slice y1 y2 x1 x2

/-- Training-time inverse mapping applied by `predict` when
`denormalize=True`: raw output scalar to pixel space, `v * 48 + 48`. -/
def denormalize (v : ℚ) : ℚ := v * 48 + 48

/-- Numpy `reshape(-1, 2)` on a flat keypoint vector: consecutive scalars
are paired as `(x, y)`. -/
def reshapePairs : List ℚ → List (ℚ × ℚ)
  | x :: yv :: rest => (x, yv) :: reshapePairs rest
  | _ => []

/-- Result container of `KeypointPredictor.predict`. -/
structure KeypointPrediction where
  keypoints : List (ℚ × ℚ)
  raw_output : List ℚ
deriving DecidableEq

/-- `KeypointPredictor.predict`: run the model forward pass
(`preprocess` plus Keras inference, abstracted as `model`) on the face
image, optionally denormalize each scalar, and reshape into pairs. -/
def predict (model : Image → List ℚ) (image : Image) (denorm : Bool) :
    KeypointPrediction :=
  let raw_output := model image
  let keypoints := if denorm then raw_output.map denormalize else raw_output
  { keypoints := reshapePairs keypoints, raw_output := raw_output }

/-- `KeypointPredictor.predict_on_original`: denormalized prediction on the
crop, then per-axis scale by crop extent over the model input size, then
translate by the crop origin.  `original_shape` is `(height, width)`. -/
def predict_on_original (model : Image → List ℚ) (image_size : Nat)
    (face_crop : Image) (bbox_x bbox_y : Int) (original_shape : Int × Int) :
    List (ℚ × ℚ) :=
  let prediction := predict model face_crop true
  let scale_x : ℚ := (original_shape.2 : ℚ) / (image_size : ℚ)
  let scale_y : ℚ := (original_shape.1 : ℚ) / (image_size : ℚ)
  prediction.keypoints.map (fun p =>
    (p.1 * scale_x + (bbox_x : ℚ), p.2 * scale_y + (bbox_y : ℚ)))

/-- Per-face result of the pipeline. -/
structure FaceKeypointsResult where
  bounding_box : BoundingBox
  keypoints : List (ℚ × ℚ)
  confidence : ℚ := 1
deriving DecidableEq

/-- Whole-image result of the pipeline. -/
structure PipelineResult where
  image : Image
  faces : List FaceKeypointsResult
deriving DecidableEq

/-- Number of detected faces, `len(self.faces)`. -/
def PipelineResult.n_faces (r : PipelineResult) : Nat := r.faces.length

/-- The unpadded crop taken inside `process`:
`img[box.y : box.y + box.height, box.x : box.x + box.width]`. -/
def cropBox (img : Image) (box : BoundingBox) : Image :=
  img.slice box.y (box.y + box.height) box.x (box.x + box.width)

/-- The per-box loop of `FacialKeypointsPipeline.process`: crop each box at
its unpadded extent, skip empty crops, otherwise predict keypoints mapped
to original-image coordinates and append the result. -/
def processBoxes (model : Image → List ℚ) (image_size : Nat) (img : Image) :
    List BoundingBox → List FaceKeypointsResult
  | [] => []
  | box :: rest =>
    let face_crop := cropBox img box
    if face_crop.size = 0 then processBoxes model image_size img rest
    else
      { bounding_box := box
        keypoints := predict_on_original model image_size face_crop
          box.x box.y (box.height, box.width) } ::
        processBoxes model image_size img rest

/-- `FacialKeypointsPipeline.process` on an in-memory image: reject a
`None` or zero-size input, detect boxes (all of them, or the single
largest when `detect_all` is false), then run the per-box loop. -/
def process (scan : Image → List (Int × Int × Int × Int))
    (model : Image → List ℚ) (image_size : Nat) (image : Option Image)
    (detect_all : Bool) : Except PyError PipelineResult :=
  match image with
  | none => .error .invalidImage
  | some img =>
    if img.size = 0 then .error .invalidImage
    else
      let boxesE : Except PyError (List BoundingBox) :=
        if detect_all then detect scan (some img)
        else (detect_single scan (some img)).map (fun b => [b])
      match boxesE with
      | .error e => .error e
      | .ok boxes => .ok { image := img, faces := processBoxes model image_size img boxes }

/-- `FacialKeypointsPipeline.process_single`: `process` with
`detect_all=False`, then `result.faces[0]`; indexing an empty Python list
raises `IndexError`. -/
def process_single (scan : Image → List (Int × Int × Int × Int))
    (model : Image → List ℚ) (image_size : Nat) (image : Option Image) :
    Except PyError FaceKeypointsResult :=
  match process scan model image_size image false with
  | .error e => .error e
  | .ok r =>
    match r.faces with
    | [] => .error .indexError
    | f :: _ => .ok f

/-- Reshaping a constant flat vector of even length pairs the constant
with itself. -/
theorem reshapePairs_replicate (n : Nat) (a : ℚ) :
    reshapePairs (List.replicate (2 * n) a) = List.replicate n (a, a) := by
  induction n with
  | zero => rfl
  | succ m ih =>
    have h2 : 2 * (m + 1) = (2 * m) + 1 + 1 := by ring
    rw [h2, List.replicate_succ, List.replicate_succ, reshapePairs,
      List.replicate_succ, ih]

/-- Reshaping commutes with mapping a scalar function over the flat
vector. -/
theorem reshapePairs_map (f : ℚ → ℚ) :
    (l : List ℚ) → reshapePairs (l.map f) = (reshapePairs l).map (fun p => (f p.1, f p.2))
  | [] => rfl
  | [_] => rfl
  | x :: yv :: rest => by
    simp only [List.map_cons, reshapePairs, List.map]
    exact congrArg _ (reshapePairs_map f rest)

/-- Claim C6: `predict` with denormalization maps every raw output scalar
`v` to `v * 48 + 48` before pairing, and on `[-1, 1]` this map is the
exact inverse of the training-time normalization `(coord - 48) / 48`. -/
theorem denormalize_inverse_spec :
    (∀ (model : Image → List ℚ) (image : Image),
      (predict model image true).keypoints =
        reshapePairs ((model image).map (fun v => v * 48 + 48))) ∧
    (∀ v : ℚ, -1 ≤ v → v ≤ 1 → denormalize v = v * 48 + 48 ∧
      (denormalize v - 48) / 48 = v) := by
  refine ⟨fun model image => rfl, fun v _ _ => ⟨rfl, ?_⟩⟩
  simp [denormalize]

/-- Witness for claim C6 at concrete inputs: a one-face model output and
the raw scalar one half. -/
theorem denormalize_inverse_spec_witness :
    (predict (fun _ => [1, -1]) (Image.mk 1 1 [0]) true).keypoints =
      reshapePairs ([1, -1].map (fun v : ℚ => v * 48 + 48)) ∧
    (denormalize (1 / 2) - 48) / 48 = (1 / 2 : ℚ) :=
  ⟨denormalize_inverse_spec.1 (fun _ => [1, -1]) (Image.mk 1 1 [0]),
    (denormalize_inverse_spec.2 (1 / 2) (by norm_num) (by norm_num)).2⟩

/-- Claim C1: `predict_on_original` applies, per keypoint and axis,
denormalization then scaling by crop extent over model input size then
translation by the crop origin; concretely, on a 50 by 50 crop at
`(10, 10)` with raw output all zeros every keypoint lands at `(35, 35)`. -/
theorem predict_on_original_spec :
    (∀ (model : Image → List ℚ) (image_size : Nat) (face_crop : Image)
      (bbox_x bbox_y : Int) (ph pw : Int),
      predict_on_original model image_size face_crop bbox_x bbox_y (ph, pw) =
        (reshapePairs (model face_crop)).map (fun p =>
          ((p.1 * 48 + 48) * ((pw : ℚ) / (image_size : ℚ)) + (bbox_x : ℚ),
           (p.2 * 48 + 48) * ((ph : ℚ) / (image_size : ℚ)) + (bbox_y : ℚ)))) ∧
    predict_on_original (fun _ => List.replicate 30 0) 96
        (Image.mk 50 50 (List.replicate 2500 0)) 10 10 (50, 50) =
      List.replicate 15 ((35 : ℚ), (35 : ℚ)) := by
  constructor
  · intro model image_size face_crop bbox_x bbox_y ph pw
    simp only [predict_on_original, predict, if_pos, reshapePairs_map,
      List.map_map]
    rfl
  · have h48 : (List.replicate 30 (0 : ℚ)).map denormalize = List.replicate (2 * 15) 48 := by
      rw [List.map_replicate]
      norm_num [denormalize]
    simp only [predict_on_original, predict, if_true, h48,
      reshapePairs_replicate, List.map_replicate]
    norm_num

/-- Claim C2: the per-box loop of `process` visits boxes in detector
order, crops each at its exact unpadded extent, silently drops exactly the
boxes with empty crops, and yields one result per surviving box in the
same order; an empty crop never aborts the rest. -/
theorem process_boxes_spec (model : Image → List ℚ) (image_size : Nat)
    (img : Image) (boxes : List BoundingBox) :
    processBoxes model image_size img boxes =
      (boxes.filter (fun b => !decide ((cropBox img b).size = 0))).map
        (fun b =>
          { bounding_box := b
            keypoints := predict_on_original model image_size (cropBox img b)
              b.x b.y (b.height, b.width) }) := by
  induction boxes with
  | nil => rfl
  | cons box rest ih =>
    by_cases h : (cropBox img box).size = 0
    · simp [processBoxes, h, List.filter, ih]
    · simp [processBoxes, h, List.filter, ih]

/-- Python's `max` with an area key is a stable maximum: the result
dominates every element's area, and every element strictly before it in
the list has strictly smaller area. -/
theorem maxByArea_stable (bs : List BoundingBox) : ∀ b : BoundingBox,
    (∀ c ∈ b :: bs, c.area ≤ (maxByArea b bs).area) ∧
    ∃ l1 l2, b :: bs = l1 ++ (maxByArea b bs) :: l2 ∧
      ∀ c ∈ l1, c.area < (maxByArea b bs).area := by
  induction bs with
  | nil =>
    intro b
    refine ⟨?_, [], [], rfl, by simp⟩
    intro c hc
    rw [List.mem_singleton] at hc
    subst hc
    exact le_refl _
  | cons c0 cs ih =>
    intro b
    have hrec : maxByArea b (c0 :: cs) =
        maxByArea (if b.area < c0.area then c0 else b) cs := rfl
    obtain ⟨hdom, l1, l2, hdec, hstrict⟩ := ih (if b.area < c0.area then c0 else b)
    rw [hrec]
    have hb_le : b.area ≤ (if b.area < c0.area then c0 else b).area := by
      by_cases h : b.area < c0.area
      · rw [if_pos h]; exact le_of_lt h
      · rw [if_neg h]
    have hc0_le : c0.area ≤ (if b.area < c0.area then c0 else b).area := by
      by_cases h : b.area < c0.area
      · rw [if_pos h]
      · rw [if_neg h]; exact le_of_not_lt h
    have hb1m : (if b.area < c0.area then c0 else b).area ≤
        (maxByArea (if b.area < c0.area then c0 else b) cs).area :=
      hdom _ (List.mem_cons_self _ _)
    constructor
    · intro c hc
      rcases List.mem_cons.mp hc with rfl | hc2
      · exact le_trans hb_le hb1m
      · rcases List.mem_cons.mp hc2 with rfl | hc3
        · exact le_trans hc0_le hb1m
        · exact hdom c (List.mem_cons_of_mem _ hc3)
    · cases l1 with
      | nil =>
        rw [List.nil_append] at hdec
        injection hdec with hb1eq hcseq
        by_cases h : b.area < c0.area
        · refine ⟨[b], l2, ?_, ?_⟩
          · rw [List.cons_append, List.nil_append, ← hb1eq, if_pos h, hcseq]
          · intro c hc
            rw [List.mem_singleton] at hc
            subst hc
            rw [← hb1eq, if_pos h]
            exact h
        · refine ⟨[], c0 :: cs, ?_, by simp⟩
          rw [List.nil_append, ← hb1eq, if_neg h]
      | cons h1 t =>
        rw [List.cons_append] at hdec
        injection hdec with hb1eq hcseq
        have hh1lt := hstrict h1 (List.mem_cons_self _ _)
        refine ⟨b :: c0 :: t, l2, ?_, ?_⟩
        · conv_lhs => rw [hcseq]
          simp [List.cons_append]
        · intro c hc
          rcases List.mem_cons.mp hc with rfl | hc2
          · exact lt_of_le_of_lt (le_of_le_of_eq hb_le (by rw [hb1eq])) hh1lt
          · rcases List.mem_cons.mp hc2 with rfl | hc3
            · exact lt_of_le_of_lt (le_of_le_of_eq hc0_le (by rw [hb1eq])) hh1lt
            · exact hstrict c (List.mem_cons_of_mem _ hc3)

/-- An error escaping `detect` is always the invalid-image error. -/
theorem detect_error_eq (scan : Image → List (Int × Int × Int × Int))
    (image : Option Image) (e : PyError)
    (h : detect scan image = .error e) : e = .invalidImage := by
  cases image with
  | none =>
    rw [detect] at h
    injection h with h1
    exact h1.symm
  | some im =>
    by_cases hs : im.size = 0
    · rw [detect] at h
      rw [if_pos hs] at h
      injection h with h1
      exact h1.symm
    · rw [detect] at h
      rw [if_neg hs] at h
      exact absurd h (by simp)

/-- Claim C3: `detect_single` fails with the no-face error exactly when
`detect` returns an empty list; otherwise it returns the box of maximum
area, ties broken by the first occurrence in detector order. -/
theorem detect_single_spec :
    (∀ (scan : Image → List (Int × Int × Int × Int)) (image : Option Image),
      detect_single scan image = .error .noFaceDetected ↔
        detect scan image = .ok []) ∧
    (∀ (scan : Image → List (Int × Int × Int × Int)) (image : Option Image)
      (b : BoundingBox) (bs : List BoundingBox),
      detect scan image = .ok (b :: bs) →
      detect_single scan image = .ok (maxByArea b bs) ∧
      (∀ c ∈ b :: bs, c.area ≤ (maxByArea b bs).area) ∧
      ∃ l1 l2, b :: bs = l1 ++ (maxByArea b bs) :: l2 ∧
        ∀ c ∈ l1, c.area < (maxByArea b bs).area) := by
  constructor
  · intro scan image
    rcases h : detect scan image with e | bxs
    · rw [detect_single, h]
      constructor
      · intro he
        injection he with he1
        have h2 := detect_error_eq scan image e h
        rw [he1] at h2
        exact absurd h2 (by simp)
      · intro hr
        exact absurd hr (by simp)
    · cases bxs with
      | nil =>
        rw [detect_single, h]
        simp [h]
      | cons b bs =>
        rw [detect_single, h]
        simp [h]
  · intro scan image b bs h
    obtain ⟨hdom, hdec⟩ := maxByArea_stable bs b
    refine ⟨?_, hdom, hdec⟩
    rw [detect_single, h]

/-- Witness for claim C3: with a synthetic scan returning boxes of areas
100 and 400, `detect_single` returns the area-400 box. -/
theorem detect_single_spec_witness :
    detect_single (fun _ => [(0, 0, 10, 10), (0, 0, 20, 20)])
        (some (Image.mk 1 1 [0])) = .ok (BoundingBox.mk 0 0 20 20) := by
  have h := (detect_single_spec.2 (fun _ => [(0, 0, 10, 10), (0, 0, 20, 20)])
    (some (Image.mk 1 1 [0])) (BoundingBox.mk 0 0 10 10)
    [BoundingBox.mk 0 0 20 20] rfl).1
  rw [h]
  rfl

/-- Claim C4: `detect` raises the invalid-image error precisely for a null
or zero-size input; a valid image on which the scan accepts zero regions
yields an empty list without error. -/
theorem detect_error_spec :
    (∀ (scan : Image → List (Int × Int × Int × Int)) (image : Option Image),
      detect scan image = .error .invalidImage ↔
        (image = none ∨ ∃ im, image = some im ∧ im.size = 0)) ∧
    (∀ (scan : Image → List (Int × Int × Int × Int)) (im : Image),
      im.size ≠ 0 → scan im = [] → detect scan (some im) = .ok []) := by
  constructor
  · intro scan image
    cases image with
    | none => simp [detect]
    | some im =>
      by_cases hs : im.size = 0
      · simp [detect, hs]
      · simp [detect, hs]
  · intro scan im hs hscan
    rw [detect, if_neg hs, hscan]
    rfl

/-- Witness for claim C4: a 1 by 1 image with a scan accepting nothing
gives an empty list, and a null image gives the invalid-image error. -/
theorem detect_error_spec_witness :
    detect (fun _ => []) (some (Image.mk 1 1 [0])) = .ok [] ∧
    detect (fun _ => []) (none : Option Image) = .error .invalidImage :=
  ⟨detect_error_spec.2 (fun _ => []) (Image.mk 1 1 [0]) (by decide) rfl,
   (detect_error_spec.1 (fun _ => []) none).mpr (Or.inl rfl)⟩

/-- Value of `pyTrunc` at zero. -/
theorem pyTrunc_zero : pyTrunc 0 = 0 := by
  simp [pyTrunc]

/-- A slice bound never exceeds the axis length. -/
theorem pyBound_le (len : Nat) (i : Int) : pyBound len i ≤ len :=
  min_le_right _ _

/-- For a non-negative endpoint, slice normalisation is a plain clamp. -/
theorem pyBound_nonneg_eq (len : Nat) (i : Int) (h : 0 ≤ i) :
    pyBound len i = min i.toNat len := by
  rw [pyBound, if_neg (not_lt.mpr h)]

/-- Height of a 2-D slice. -/
theorem Image.slice_height (im : Image) (y1 y2 x1 x2 : Int) :
    (im.slice y1 y2 x1 x2).height = pyBound im.height y2 - pyBound im.height y1 := rfl

/-- Width of a 2-D slice. -/
theorem Image.slice_width (im : Image) (y1 y2 x1 x2 : Int) :
    (im.slice y1 y2 x1 x2).width = pyBound im.width x2 - pyBound im.width x1 := rfl

/-- Size of a 2-D slice. -/
theorem Image.slice_size (im : Image) (y1 y2 x1 x2 : Int) :
    (im.slice y1 y2 x1 x2).size =
      (pyBound im.height y2 - pyBound im.height y1) *
        (pyBound im.width x2 - pyBound im.width x1) := rfl

/-- With zero padding, `crop_face` slices at the max- and min-clamped box
extent. -/
theorem crop_face_padding_zero (im : Image) (box : BoundingBox) :
    crop_face im box 0 = im.slice (max 0 box.y)
      (min (im.height : Int) (box.y + box.height))
      (max 0 box.x) (min (im.width : Int) (box.x + box.width)) := by
  simp [crop_face, pyTrunc_zero]

/-- Counterexample to claim C5 as stated: the box at x = -100 of width 10
lies entirely outside the 1 by 200 image, yet `crop_face` with zero
padding returns a non-empty crop of 110 columns, because the min-clamped
stop index is negative and Python slice normalisation wraps it to the
other end of the axis. -/
theorem crop_face_outside_box_nonempty :
    (BoundingBox.mk (-100) 0 10 1).x + (BoundingBox.mk (-100) 0 10 1).width ≤ 0 ∧
    (crop_face (Image.mk 1 200 (List.replicate 200 0))
      (BoundingBox.mk (-100) 0 10 1) 0).size = 110 := by
  constructor
  · decide
  · rw [crop_face_padding_zero, Image.slice_size]
    decide

/-- Claim C5 (amended): for a box with non-negative coordinates and extent
and non-negative padding, `crop_face` clamps its slice onto the image (the
crop never exceeds the image extent), a zero-area box yields an empty
crop, and with zero padding a box starting at or beyond the image extent
yields an empty crop. -/
theorem crop_face_clamped_spec (im : Image) (box : BoundingBox) (padding : ℚ)
    (hx : 0 ≤ box.x) (hy : 0 ≤ box.y) (hw : 0 ≤ box.width)
    (hh : 0 ≤ box.height) (hp : 0 ≤ padding) :
    (crop_face im box padding).height ≤ im.height ∧
    (crop_face im box padding).width ≤ im.width ∧
    ((box.width = 0 ∨ box.height = 0) → (crop_face im box padding).size = 0) ∧
    (padding = 0 → ((im.width : Int) ≤ box.x ∨ (im.height : Int) ≤ box.y) →
      (crop_face im box padding).size = 0) := by
  have hcf : crop_face im box padding = im.slice
      (max 0 (box.y - pyTrunc ((box.height : ℚ) * padding)))
      (min (im.height : Int) (box.y + box.height + pyTrunc ((box.height : ℚ) * padding)))
      (max 0 (box.x - pyTrunc ((box.width : ℚ) * padding)))
      (min (im.width : Int) (box.x + box.width + pyTrunc ((box.width : ℚ) * padding))) := rfl
  refine ⟨?_, ?_, ?_, ?_⟩
  · rw [hcf, Image.slice_height]
    exact le_trans (Nat.sub_le _ _) (pyBound_le _ _)
  · rw [hcf, Image.slice_width]
    exact le_trans (Nat.sub_le _ _) (pyBound_le _ _)
  · intro hcase
    rcases hcase with h0 | h0
    · have hpad : pyTrunc ((box.width : ℚ) * padding) = 0 := by
        rw [h0, Int.cast_zero, zero_mul]
        exact pyTrunc_zero
      rw [hcf, Image.slice_size, hpad, h0]
      apply Nat.mul_eq_zero.mpr
      right
      rw [pyBound_nonneg_eq, pyBound_nonneg_eq]
      · omega
      · omega
      · omega
    · have hpad : pyTrunc ((box.height : ℚ) * padding) = 0 := by
        rw [h0, Int.cast_zero, zero_mul]
        exact pyTrunc_zero
      rw [hcf, Image.slice_size, hpad, h0]
      apply Nat.mul_eq_zero.mpr
      left
      rw [pyBound_nonneg_eq, pyBound_nonneg_eq]
      · omega
      · omega
      · omega
  · intro hp0 hout
    subst hp0
    have hpx : pyTrunc ((box.width : ℚ) * 0) = 0 := by
      rw [mul_zero]; exact pyTrunc_zero
    have hpy : pyTrunc ((box.height : ℚ) * 0) = 0 := by
      rw [mul_zero]; exact pyTrunc_zero
    rw [hcf, Image.slice_size, hpx, hpy]
    rcases hout with hox | hoy
    · apply Nat.mul_eq_zero.mpr
      right
      rw [pyBound_nonneg_eq, pyBound_nonneg_eq]
      · omega
      · omega
      · omega
    · apply Nat.mul_eq_zero.mpr
      left
      rw [pyBound_nonneg_eq, pyBound_nonneg_eq]
      · omega
      · omega
      · omega

/-- Witness for the amended claim C5: a zero-width box with non-negative
coordinates on a 2 by 2 image yields an empty crop. -/
theorem crop_face_clamped_spec_witness :
    (crop_face (Image.mk 2 2 [1, 2, 3, 4]) (BoundingBox.mk 0 0 0 2) 0).size = 0 :=
  (crop_face_clamped_spec (Image.mk 2 2 [1, 2, 3, 4]) (BoundingBox.mk 0 0 0 2) 0
    (by decide) (by decide) (by decide) (by decide) (le_refl 0)).2.2.1 (Or.inl rfl)

/-- Claim C8: for every bounding box, the derived center is
`(x + width // 2, y + height // 2)` with integer floor division and the
derived area is `width * height`, including zero-area and zero-origin
boxes. -/
theorem bounding_box_center_area_spec (x y w h : Int) :
    (BoundingBox.mk x y w h).center = (x + Int.fdiv w 2, y + Int.fdiv h 2) ∧
    (BoundingBox.mk x y w h).area = w * h := by
  constructor <;> rfl

/-- Claim C7: on a valid image for which the scan accepts zero regions,
`process` with detect-all returns normally with an empty face list and
zero faces; null and zero-size inputs instead take the invalid-image
error path. -/
theorem process_zero_faces_spec :
    (∀ (scan : Image → List (Int × Int × Int × Int)) (model : Image → List ℚ)
      (image_size : Nat) (im : Image), im.size ≠ 0 → scan im = [] →
      process scan model image_size (some im) true =
        .ok (PipelineResult.mk im []) ∧
      PipelineResult.n_faces (PipelineResult.mk im []) = 0) ∧
    (∀ (scan : Image → List (Int × Int × Int × Int)) (model : Image → List ℚ)
      (image_size : Nat),
      process scan model image_size none true = .error .invalidImage) ∧
    (∀ (scan : Image → List (Int × Int × Int × Int)) (model : Image → List ℚ)
      (image_size : Nat) (im : Image), im.size = 0 →
      process scan model image_size (some im) true = .error .invalidImage) := by
  refine ⟨?_, ?_, ?_⟩
  · intro scan model image_size im hs hscan
    have hdet : detect scan (some im) = .ok [] := by
      rw [detect, if_neg hs, hscan]
      rfl
    constructor
    · simp [process, hs, hdet, processBoxes]
    · rfl
  · intro scan model image_size
    rfl
  · intro scan model image_size im hs
    simp [process, hs]

/-- Witness for claim C7: a 1 by 1 image with a scan accepting nothing
yields a zero-face result. -/
theorem process_zero_faces_spec_witness :
    process (fun _ => []) (fun _ => []) 96 (some (Image.mk 1 1 [0])) true =
      .ok (PipelineResult.mk (Image.mk 1 1 [0]) []) :=
  (process_zero_faces_spec.1 (fun _ => []) (fun _ => []) 96 (Image.mk 1 1 [0])
    (by decide) rfl).1

/-- Claim C9: when detection succeeds on a single-face call but the
selected box's crop is empty, `process` silently drops the box and returns
an empty face list, and `process_single`'s access of index 0 fails with
the index error, which is neither of the library's defined error kinds. -/
theorem process_single_index_error_spec
    (scan : Image → List (Int × Int × Int × Int)) (model : Image → List ℚ)
    (image_size : Nat) (im : Image) (b : BoundingBox) (bs : List BoundingBox)
    (hs : im.size ≠ 0) (hdet : detect scan (some im) = .ok (b :: bs))
    (hcrop : (cropBox im (maxByArea b bs)).size = 0) :
    process scan model image_size (some im) false =
      .ok (PipelineResult.mk im []) ∧
    process_single scan model image_size (some im) = .error .indexError ∧
    PyError.indexError ≠ PyError.noFaceDetected ∧
    PyError.indexError ≠ PyError.invalidImage := by
  have hds : detect_single scan (some im) = .ok (maxByArea b bs) := by
    rw [detect_single, hdet]
  have hproc : process scan model image_size (some im) false =
      .ok (PipelineResult.mk im []) := by
    simp [process, hs, hds, processBoxes, hcrop, Except.map]
  refine ⟨hproc, ?_, by decide, by decide⟩
  rw [process_single, hproc]

/-- Witness for claim C9: a detector box at (5, 5) of size 3 on a 1 by 1
image crops empty, and `process_single` fails with the index error. -/
theorem process_single_index_error_spec_witness :
    process_single (fun _ => [(5, 5, 3, 3)]) (fun _ => []) 96
      (some (Image.mk 1 1 [0])) = .error .indexError :=
  (process_single_index_error_spec (fun _ => [(5, 5, 3, 3)]) (fun _ => []) 96
    (Image.mk 1 1 [0]) (BoundingBox.mk 5 5 3 3) [] (by decide) rfl
    (by decide)).2.1

/-- Claim C10: every successful `process` run returns the input image
itself in the result; in this pure embedding detection, preprocessing and
cropping all build fresh values, and the pipeline threads the input image
through to the result unchanged. -/
theorem process_preserves_image_spec
    (scan : Image → List (Int × Int × Int × Int)) (model : Image → List ℚ)
    (image_size : Nat) (im : Image) (detect_all : Bool) (r : PipelineResult)
    (h : process scan model image_size (some im) detect_all = .ok r) :
    r.image = im := by
  rw [process] at h
  by_cases hs : im.size = 0
  · rw [if_pos hs] at h
    exact absurd h (by simp)
  · rw [if_neg hs] at h
    rcases hE : (if detect_all then detect scan (some im)
        else (detect_single scan (some im)).map (fun b => [b])) with e | boxes
    · rw [hE] at h
      exact absurd h (by simp)
    · rw [hE] at h
      injection h with h1
      rw [← h1]

/-- Witness for claim C10: the zero-detection run on a 1 by 1 image
returns a result whose image field is the input image. -/
theorem process_preserves_image_spec_witness :
    (PipelineResult.mk (Image.mk 1 1 [0]) []).image = Image.mk 1 1 [0] :=
  process_preserves_image_spec (fun _ => []) (fun _ => []) 96 (Image.mk 1 1 [0])
    true (PipelineResult.mk (Image.mk 1 1 [0]) []) rfl

end FacialKeypoints
